import Mathlib

/-!
Verification of the fuel-route-optimizer core: the spatial index
(`src/infrastructure/spatial_index.py`) and the greedy optimizer
(`src/optimization/optimizer.py`).

Modelling conventions:
* Python floats are modelled as elements of a linear ordered field; the
  algorithmic code is stated generically over `α` with the great-circle
  distance function `d` as an explicit parameter, mirroring the source in
  which every distance is produced by the single `_haversine_distance` /
  `_distance` formula.  The real-number instantiations (`haversine`,
  `find_in_radius`, `optimize`) plug in the source's actual formula.
* `round(x, 2)` is modelled by `round2` (half-integer ties follow
  Mathlib's `round`; Python's banker's rounding differs only at exact
  `.xx5` ties, which no statement below exercises).
* The scipy `KDTree` is an external library; its documented semantics are
  modelled directly: `query_ball_point(p, r)` keeps exactly the points at
  Euclidean distance (in degree coordinates) `≤ r` from `p`, and
  `query(p, k)` returns the `k` Euclidean-nearest points in ascending
  order.  Euclidean comparisons are expressed on squared distances,
  which is equivalent.
* `mpg` is nonzero in every use below (Lean's total division by zero never
  arises on the inputs exercised).
* The uncaught `IndexError` of `optimize` on an empty route list is
  modelled by `Option`: `none` is the raised exception.
* `computation_ms` is wall-clock time and is not part of the model.
-/

set_option linter.unusedSectionVars false

namespace FuelOpt

/-- A geographic point `(latitude, longitude)` in decimal degrees. -/
abbrev Point (α : Type) := α × α

/-- One station record, as parsed by `load_from_csv` into a dict. -/
structure Station (α : Type) where
  id : String
  name : String
  city : String
  state : String
  price : α
  lat : α
  lon : α
  deriving DecidableEq, Repr

/-- A station dict together with the `'distance_miles'` key that the index
queries add to a copy of the record. -/
structure Candidate (α : Type) where
  station : Station α
  distance_miles : α
  deriving DecidableEq, Repr

/-- A raw CSV row after the `float(...)` parses have succeeded.  Rows whose
numeric parses raise `ValueError`/`KeyError` are skipped by the source with
the same effect as an invalid-coordinate row, so they are not modelled
separately. -/
structure RawRow (α : Type) where
  id : String
  name : String
  city : String
  state : String
  price : α
  lat : α
  lon : α
  deriving DecidableEq, Repr

/-- State of `UltraFastSpatialIndex`: the station list and whether `self.tree`
is not `None`.  `station_count` is always `len(self.stations)` in the
source, so it is modelled as `stations.length`. -/
structure SpatialIndex (α : Type) where
  stations : List (Station α)
  hasTree : Bool
  deriving DecidableEq, Repr

/-- The dict returned by `get_stats` (the `memory_mb` estimate is numpy
bookkeeping and is not modelled). -/
structure IndexStats where
  station_count : Nat
  is_loaded : Bool
  deriving DecidableEq, Repr

/-- Result record for a single refuel, from `optimizer.FuelStop`. -/
structure FuelStop (α : Type) where
  name : String
  location : Point α
  price : α
  gallons : α
  cost : α
  miles_from_start : α
  deriving DecidableEq, Repr

/-- Model of `optimizer.OptimizationResult` (minus the wall-clock field). -/
structure OptimizationResult (α : Type) where
  stops : List (FuelStop α)
  total_cost : α
  total_gallons : α
  total_distance : α
  deriving DecidableEq, Repr

variable {α : Type} [LinearOrderedField α] [FloorRing α]

/-- Python's `round(x, 2)`. -/
def round2 (x : α) : α := ((round (100 * x) : ℤ) : α) / 100

/-- Squared Euclidean distance in raw degree coordinates: the metric of the
`KDTree` built over the `[lat, lon]` array. -/
def sqDeg (p q : Point α) : α := (p.1 - q.1) ^ 2 + (p.2 - q.2) ^ 2

/-- The row filter of `load_from_csv`: rows with a zero coordinate or an
out-of-range coordinate are skipped. -/
def valid_row (r : RawRow α) : Bool :=
  decide (¬(r.lat = 0 ∨ r.lon = 0) ∧ (-90 ≤ r.lat ∧ r.lat ≤ 90) ∧ (-180 ≤ r.lon ∧ r.lon ≤ 180))

/-- The station dict built from a surviving row. -/
def row_station (r : RawRow α) : Station α :=
  ⟨r.id, r.name, r.city, r.state, r.price, r.lat, r.lon⟩

/-- A freshly constructed `UltraFastSpatialIndex()` (no load yet:
`self.tree is None`). -/
def empty_index : SpatialIndex α := ⟨[], false⟩

/-- Model of `load_from_csv`, starting from the already-parsed row sequence (CSV
reading itself is external glue): keep the valid rows, and build the tree
only when at least one station survived (`if self.station_count > 0`). -/
def load_from_rows (rows : List (RawRow α)) : SpatialIndex α :=
  let sts := (rows.filter valid_row).map row_station
  ⟨sts, decide (0 < sts.length)⟩

/-- Model of `get_stats`. -/
def get_stats (idx : SpatialIndex α) : IndexStats :=
  ⟨idx.stations.length, idx.hasTree⟩

/-- Stable ascending insertion: place `x` before the first element whose key
is strictly larger.  Together with `sortByKey` below this models Python's
stable `list.sort(key=...)`. -/
def insertByKey {β : Type} (key : β → α) (x : β) : List β → List β
  | [] => [x]
  | y :: ys => if key x ≤ key y then x :: y :: ys else y :: insertByKey key x ys

/-- Stable sort by a key (model of `list.sort(key=...)`). -/
def sortByKey {β : Type} (key : β → α) : List β → List β
  | [] => []
  | x :: xs => insertByKey key x (sortByKey key xs)

/-- Model of `find_in_radius`, generic in the exact-distance function `d` (the source
uses `_haversine_distance`).  `query_ball_point(point, radius_deg)` is the
degree-space Euclidean ball, taken in station-array order (scipy leaves
single-point results unsorted; only the stable-sort tie order among equal
rounded distances depends on that order). -/
def find_in_radius_d (d : Point α → Point α → α) (idx : SpatialIndex α)
    (point : Point α) (radius_miles : α) : List (Candidate α) :=
  if idx.hasTree = false ∨ idx.stations.length = 0 then [] else
  let radius_deg := radius_miles / 69
  let pre := idx.stations.filter fun s =>
    decide (sqDeg point (s.lat, s.lon) ≤ radius_deg ^ 2 ∧ 0 ≤ radius_deg)
  let results := pre.filterMap fun s =>
    let dist := d point (s.lat, s.lon)
    if dist ≤ radius_miles then some ⟨s, round2 dist⟩ else none
  sortByKey (fun c => c.distance_miles) results

/-- Candidate score from `_find_best_station`:
`station['price'] + detour_dist * 0.01`. -/
def score (c : Candidate α) : α := c.station.price + c.distance_miles * (1 / 100)

/-- The `best_score = inf` / `best_station = None` scan of
`_find_best_station`: strict `<` keeps the first-found minimum, and the
first candidate always beats the infinite initial score. -/
def bestOf : List (Candidate α) → Option (Candidate α) :=
  List.foldl
    (fun acc c => match acc with
      | none => some c
      | some b => if score c < score b then some c else acc)
    none

/-- The candidate list used by `_find_best_station`: a radius search within
`min(current_fuel * 0.9, max_detour)` miles (with `max_detour = 20`),
retried with radius `min(current_fuel, 50)` when the first search comes
back empty. -/
def effective_candidates (d : Point α → Point α → α)
    (current_location : Point α) (idx : SpatialIndex α)
    (current_fuel : α) : List (Candidate α) :=
  let search_radius := min (current_fuel * (9 / 10)) 20
  let cands := find_in_radius_d d idx current_location search_radius
  if cands.isEmpty then find_in_radius_d d idx current_location (min current_fuel 50)
  else cands

/-- Model of `_find_best_station`.  `next_waypoint` and `remaining_waypoints` are
accepted and ignored exactly as in the source body; only the first 30
candidates are scored. -/
def find_best_station_d (d : Point α → Point α → α)
    (current_location : Point α) (next_waypoint : Point α)
    (remaining_waypoints : List (Point α)) (idx : SpatialIndex α)
    (current_fuel : α) : Option (Candidate α) :=
  let _ := next_waypoint
  let _ := remaining_waypoints
  bestOf ((effective_candidates d current_location idx current_fuel).take 30)

/-- The interior loop of `_sample_route`: walk the remaining points, keeping
a point whenever the running haversine sum reaches the interval, then
resetting the sum. -/
def sample_aux (d : Point α → Point α → α) (interval : α) :
    Point α → List (Point α) → α → List (Point α)
  | _, [], _ => []
  | prev, p :: ps, cum =>
    let c := cum + d prev p
    if interval ≤ c then p :: sample_aux d interval p ps 0
    else sample_aux d interval p ps c

/-- Model of `_sample_route`: inputs with fewer than two points are returned as-is;
otherwise the first point is emitted, the interval walk runs, and the last
input point is appended when it is not already the last sample. -/
def sample_route (d : Point α → Point α → α) (interval : α) :
    List (Point α) → List (Point α)
  | [] => []
  | [p] => [p]
  | p :: q :: rest =>
    let lastPt := (q :: rest).getLast (List.cons_ne_nil q rest)
    let sampled := p :: sample_aux d interval p (q :: rest) 0
    if sampled.getLast (List.cons_ne_nil _ _) = lastPt then sampled
    else sampled ++ [lastPt]

/-- The per-call optimizer state threaded through the waypoint loop. -/
structure WalkState (α : Type) where
  stops : List (FuelStop α)
  fuel : α
  distTraveled : α
  totalCost : α
  totalGallons : α
  lastStop : Point α
  deriving DecidableEq, Repr

/-- The refuel branch of the waypoint loop (`if station:`): fill to 80% of
max range, record the stop, update fuel and the last-stop location. -/
def refuel_update (maxRange mpg : α) (st : WalkState α) (c : Candidate α) :
    WalkState α :=
  let fuel_capacity := (8 / 10) * maxRange
  let gallons_needed := fuel_capacity / mpg
  let cost := gallons_needed * c.station.price
  { st with
    stops := st.stops ++
      [⟨c.station.name, (c.station.lat, c.station.lon), c.station.price,
        round2 gallons_needed, round2 cost, round2 st.distTraveled⟩]
    totalCost := st.totalCost + cost
    totalGallons := st.totalGallons + gallons_needed
    fuel := fuel_capacity
    lastStop := (c.station.lat, c.station.lon) }

/-- The unconditional end of each loop iteration: subtract the segment from
the remaining fuel and add it to the cumulative distance. -/
def advance (st : WalkState α) (seg : α) : WalkState α :=
  { st with fuel := st.fuel - seg, distTraveled := st.distTraveled + seg }

/-- One iteration of the waypoint loop of `optimize` for waypoint `w` with
remaining waypoints `ws` (the lookahead slice `waypoints[i:i+3]` is
`(w :: ws).take 3`). -/
def step_d (d : Point α → Point α → α) (maxRange mpg : α)
    (idx : SpatialIndex α) (st : WalkState α) (w : Point α)
    (ws : List (Point α)) : WalkState α :=
  let seg := d st.lastStop w
  let st' :=
    if st.fuel - 30 < seg then
      match find_best_station_d d st.lastStop w ((w :: ws).take 3) idx st.fuel with
      | some c => refuel_update maxRange mpg st c
      | none => st
    else st
  advance st' seg

/-- The waypoint loop over `waypoints[1:]`. -/
def walk_d (d : Point α → Point α → α) (maxRange mpg : α)
    (idx : SpatialIndex α) : WalkState α → List (Point α) → WalkState α
  | st, [] => st
  | st, w :: ws => walk_d d maxRange mpg idx (step_d d maxRange mpg idx st w ws) ws

/-- Model of `optimize`, generic in the distance function.  `route_points[0]` raises
`IndexError` on an empty route; that exception is the `none` result. -/
def optimize_d (d : Point α → Point α → α) (maxRange mpg : α)
    (route_points : List (Point α)) (total_distance : α)
    (idx : SpatialIndex α) : Option (OptimizationResult α) :=
  match route_points with
  | [] => none
  | p0 :: _ =>
    let waypoints := sample_route d 50 route_points
    let init : WalkState α := ⟨[], maxRange, 0, 0, 0, p0⟩
    let fin := walk_d d maxRange mpg idx init waypoints.tail
    some ⟨fin.stops, round2 fin.totalCost, round2 fin.totalGallons,
      round2 total_distance⟩

/-- The stop list of an optimizer outcome (`[]` for the raised case). -/
def stopsOf (r : Option (OptimizationResult α)) : List (FuelStop α) :=
  (r.map OptimizationResult.stops).getD []

/-- Model of `math.radians`. -/
noncomputable def radians (x : ℝ) : ℝ := x * Real.pi / 180

/-- Model of `_haversine_distance` / `_distance`: the haversine formula with Earth
radius 3959 miles, identical in both source files. -/
noncomputable def haversine (p q : Point ℝ) : ℝ :=
  let lat1 := radians p.1
  let lon1 := radians p.2
  let lat2 := radians q.1
  let lon2 := radians q.2
  let dlat := lat2 - lat1
  let dlon := lon2 - lon1
  let a := Real.sin (dlat / 2) ^ 2 +
    Real.cos lat1 * Real.cos lat2 * Real.sin (dlon / 2) ^ 2
  let c := 2 * Real.arcsin (Real.sqrt a)
  3959 * c

/-- Model of `find_in_radius` with the source's exact-distance function. -/
noncomputable def find_in_radius (idx : SpatialIndex ℝ) (point : Point ℝ)
    (radius_miles : ℝ) : List (Candidate ℝ) :=
  find_in_radius_d haversine idx point radius_miles

/-- Model of `find_nearest_n`: a never-built or zero-station index returns
`[]` early; otherwise `n` is clamped to the station count and
`tree.query([point], k=n)` runs.  scipy's documented `query` raises
`ValueError` when `k = 0` (`k` must be at least one) and, because a
`k == 1` query squeezes the `k` dimension so `distances[0]` is a scalar,
the subsequent `zip(distances[0], indices[0])` raises `TypeError` when
`k = 1`; both raised exceptions are the `none` outcome.  For `k ≥ 2` the
query yields the `k` tree-nearest stations in ascending (squared) degree
distance, each reported as `round(dist_deg * 69, 2)`. -/
noncomputable def find_nearest_n (idx : SpatialIndex ℝ) (point : Point ℝ)
    (n : ℕ) : Option (List (Candidate ℝ)) :=
  if idx.hasTree = false ∨ idx.stations.length = 0 then some [] else
  let k := min n idx.stations.length
  if k = 0 then none
  else if k = 1 then none
  else some
    (((sortByKey (fun s => sqDeg point (s.lat, s.lon)) idx.stations).take k).map
      fun s => ⟨s, round2 (Real.sqrt (sqDeg point (s.lat, s.lon)) * 69)⟩)

/-- Model of `optimize` with the source's haversine distance. -/
noncomputable def optimize (maxRange mpg : ℝ)
    (route_points : List (Point ℝ)) (total_distance : ℝ)
    (idx : SpatialIndex ℝ) : Option (OptimizationResult ℝ) :=
  optimize_d haversine maxRange mpg route_points total_distance idx

/-! ### Basic lemmas about the model -/

theorem round2_zero : round2 (0 : α) = 0 := by
  simp [round2]

theorem round2_mono {x y : α} (h : x ≤ y) : round2 x ≤ round2 y := by
  unfold round2
  have h100 : (100 : α) * x ≤ 100 * y := by nlinarith
  have : round ((100 : α) * x) ≤ round (100 * y) := by
    rw [round_eq, round_eq]
    exact Int.floor_mono (by linarith)
  rw [div_le_div_iff_of_pos_right (by norm_num : (0:α) < 100)]
  exact_mod_cast this

theorem round2_nonneg {x : α} (h : 0 ≤ x) : 0 ≤ round2 x := by
  have := round2_mono h
  rwa [round2_zero] at this

theorem mem_insertByKey {β : Type} (key : β → α) (x : β) (l : List β) (z : β) :
    z ∈ insertByKey key x l ↔ z ∈ x :: l := by
  induction l with
  | nil => simp [insertByKey]
  | cons y ys ih =>
    by_cases h : key x ≤ key y
    · simp [insertByKey, h]
    · simp only [insertByKey, if_neg h, List.mem_cons, ih]
      tauto

theorem mem_sortByKey {β : Type} (key : β → α) (l : List β) (z : β) :
    z ∈ sortByKey key l ↔ z ∈ l := by
  induction l with
  | nil => simp [sortByKey]
  | cons x xs ih =>
    simp [sortByKey, mem_insertByKey, ih]

theorem pairwise_insertByKey {β : Type} (key : β → α) (x : β) (l : List β)
    (h : l.Pairwise (fun a b => key a ≤ key b)) :
    (insertByKey key x l).Pairwise (fun a b => key a ≤ key b) := by
  induction l with
  | nil => simp [insertByKey]
  | cons y ys ih =>
    rcases List.pairwise_cons.mp h with ⟨hy, hys⟩
    by_cases hxy : key x ≤ key y
    · rw [insertByKey, if_pos hxy]
      refine List.pairwise_cons.mpr ⟨?_, h⟩
      intro z hz
      rcases List.mem_cons.mp hz with rfl | hz
      · exact hxy
      · exact le_trans hxy (hy z hz)
    · rw [insertByKey, if_neg hxy]
      refine List.pairwise_cons.mpr ⟨?_, ih hys⟩
      intro z hz
      rcases List.mem_cons.mp ((mem_insertByKey key x ys z).mp hz) with h1 | h1
      · subst h1; exact le_of_not_le hxy
      · exact hy z h1

theorem pairwise_sortByKey {β : Type} (key : β → α) (l : List β) :
    (sortByKey key l).Pairwise (fun a b => key a ≤ key b) := by
  induction l with
  | nil => simp [sortByKey]
  | cons x xs ih => exact pairwise_insertByKey key x (sortByKey key xs) ih

theorem length_insertByKey {β : Type} (key : β → α) (x : β) (l : List β) :
    (insertByKey key x l).length = l.length + 1 := by
  induction l with
  | nil => simp [insertByKey]
  | cons y ys ih =>
    by_cases h : key x ≤ key y
    · simp [insertByKey, h]
    · simp [insertByKey, h, ih]

theorem length_sortByKey {β : Type} (key : β → α) (l : List β) :
    (sortByKey key l).length = l.length := by
  induction l with
  | nil => simp [sortByKey]
  | cons x xs ih => simp [sortByKey, length_insertByKey, ih]

/-! ### C3: `is_loaded` after a build that kept zero stations -/

/-- C3 counterexample: an index built entirely from invalid rows (here a
single row with latitude 0) is the built-but-empty case, yet `get_stats`
reports `is_loaded = false` with `station_count = 0`, contradicting the
claim that every built index reports `is_loaded = true`. -/
theorem c3_counterexample :
    get_stats (load_from_rows (α := ℚ) [⟨"1", "Bad", "", "", 3, 0, 50⟩]) =
      ⟨0, false⟩ := by
  rfl

/-- C3 amended: `is_loaded` is true iff the build retained at least one
station (the source builds `self.tree` only under `station_count > 0`), so
a built-but-empty index reports `is_loaded = false` exactly like a
never-built one. -/
theorem c3_amended (rows : List (RawRow α)) :
    ((get_stats (load_from_rows rows)).is_loaded = true ↔
      0 < (get_stats (load_from_rows rows)).station_count) ∧
    (get_stats (empty_index (α := α))).is_loaded = false := by
  constructor
  · simp [get_stats, load_from_rows]
  · rfl

/-! ### C4: empty and single-point routes -/

/-- C4 counterexample: on an empty route list, `optimize` evaluates
`route_points[0]` and raises `IndexError` (the `none` outcome) instead of
returning a degenerate result. -/
theorem c4_counterexample :
    optimize_d (α := ℚ) (fun _ _ => 0) 500 10 [] 150 empty_index = none := rfl

/-- C4 amended: a single-point route is a valid input and yields a result
with zero stops, zero cost and zero gallons; an empty route raises
`IndexError` (no result) for every distance function, configuration and
index. -/
theorem c4_amended (d : Point α → Point α → α) (maxRange mpg td : α)
    (p : Point α) (idx : SpatialIndex α) :
    optimize_d d maxRange mpg [p] td idx = some ⟨[], 0, 0, round2 td⟩ ∧
    optimize_d d maxRange mpg [] td idx = none := by
  constructor
  · simp [optimize_d, sample_route, walk_d, round2_zero]
  · rfl

/-! ### C8: route sampling endpoints and length -/

theorem sample_aux_sublist (d : Point α → Point α → α) (interval : α)
    (prev : Point α) (l : List (Point α)) (cum : α) :
    (sample_aux d interval prev l cum).Sublist l := by
  induction l generalizing prev cum with
  | nil => simp [sample_aux]
  | cons p ps ih =>
    rw [sample_aux]
    by_cases h : interval ≤ cum + d prev p
    · rw [if_pos h]; exact (ih p 0).cons₂ p
    · rw [if_neg h]; exact (ih p (cum + d prev p)).cons p

/-- C8: for every input polyline with at least two points, `_sample_route`
emits the first input point first and the last input point last, and the
sampled list is never longer than the input. -/
theorem c8_sample_route_endpoints (d : Point α → Point α → α) (interval : α)
    (pts : List (Point α)) (h : 2 ≤ pts.length) :
    (sample_route d interval pts).head? = pts.head? ∧
    (sample_route d interval pts).getLast? = pts.getLast? ∧
    (sample_route d interval pts).length ≤ pts.length := by
  match pts, h with
  | p :: q :: rest, _ =>
    rw [sample_route]
    set lastPt := (q :: rest).getLast (List.cons_ne_nil q rest) with hlast
    set tl := sample_aux d interval p (q :: rest) 0 with htl
    have hsub : tl.Sublist (q :: rest) := sample_aux_sublist d interval p (q :: rest) 0
    have hlen : tl.length ≤ (q :: rest).length := hsub.length_le
    have hlast_pts : (p :: q :: rest).getLast? = some lastPt := by
      rw [List.getLast?_eq_getLast _ (List.cons_ne_nil _ _)]
      rw [List.getLast_cons (List.cons_ne_nil q rest)]
    by_cases hcond : (p :: tl).getLast (List.cons_ne_nil _ _) = lastPt
    · rw [if_pos hcond]
      refine ⟨rfl, ?_, ?_⟩
      · rw [List.getLast?_eq_getLast _ (List.cons_ne_nil _ _), hcond, hlast_pts]
      · simpa using Nat.succ_le_succ hlen
    · rw [if_neg hcond]
      refine ⟨by simp, ?_, ?_⟩
      · rw [List.getLast?_concat, hlast_pts]
      · by_contra hgt
        push_neg at hgt
        have h1 : (q :: rest).length + 1 < (p :: tl).length + 1 := by
          simpa using hgt
        have h2 : (q :: rest).length ≤ tl.length := by
          simpa using Nat.lt_succ_iff.mp (Nat.lt_of_succ_lt_succ h1)
        have heq : tl = q :: rest := hsub.eq_of_length (le_antisymm hlen h2)
        apply hcond
        rw [heq] at htl ⊢
        rw [List.getLast_cons (List.cons_ne_nil q rest)]

/-- C8 witness: the endpoint and length properties at a concrete two-point
route. -/
theorem c8_witness :
    (2 ≤ ([((0 : ℚ), (0 : ℚ)), (1, 0)] : List (Point ℚ)).length) ∧
    ((sample_route (fun _ _ => 1) 50 [((0 : ℚ), (0 : ℚ)), (1, 0)]).head? =
        ([((0 : ℚ), (0 : ℚ)), (1, 0)] : List (Point ℚ)).head? ∧
      (sample_route (fun _ _ => 1) 50 [((0 : ℚ), (0 : ℚ)), (1, 0)]).getLast? =
        ([((0 : ℚ), (0 : ℚ)), (1, 0)] : List (Point ℚ)).getLast? ∧
      (sample_route (fun _ _ => 1) 50 [((0 : ℚ), (0 : ℚ)), (1, 0)]).length ≤
        ([((0 : ℚ), (0 : ℚ)), (1, 0)] : List (Point ℚ)).length) :=
  ⟨by decide, c8_sample_route_endpoints (fun _ _ => 1) 50 _ (by decide)⟩

/-! ### C9: two-run determinism -/

/-- C9: `optimize` run twice on identical route points, total distance and
spatial index (with the same configuration) returns identical results.  In
the model this is functional purity: all optimizer state (`fuel`,
`distance_traveled`, `stops`, ...) is created afresh inside each call, the
candidate scan keeps the first-found minimum deterministically, and the
index is read-only; wall-clock `computation_ms` is outside the model. -/
theorem c9_two_run_determinism (d : Point α → Point α → α) (maxRange mpg : α)
    (pts pts' : List (Point α)) (td td' : α) (idx idx' : SpatialIndex α)
    (h1 : pts = pts') (h2 : td = td') (h3 : idx = idx') :
    optimize_d d maxRange mpg pts td idx = optimize_d d maxRange mpg pts' td' idx' := by
  subst h1; subst h2; subst h3; rfl

/-- C9 witness: determinism applied at a concrete one-point route. -/
theorem c9_witness :
    ([((0 : ℚ), (0 : ℚ))] : List (Point ℚ)) = [((0 : ℚ), (0 : ℚ))] ∧
    (150 : ℚ) = 150 ∧
    (empty_index : SpatialIndex ℚ) = empty_index ∧
    optimize_d (fun _ _ => 0) 500 10 [((0 : ℚ), (0 : ℚ))] 150 empty_index =
      optimize_d (fun _ _ => 0) 500 10 [((0 : ℚ), (0 : ℚ))] 150 empty_index :=
  ⟨rfl, rfl, rfl,
    c9_two_run_determinism (fun _ _ => 0) 500 10 _ _ _ _ _ _ rfl rfl rfl⟩

/-! ### C5: refuel needed but no station found -/

/-- C5: when a refuel is required at a waypoint (`segment > fuel − buffer`)
but the station search returns nothing even after the expanded-radius
retry, the loop iteration records no stop, only performs the unconditional
fuel/distance update, and the walk continues; `optimize` still returns a
result on every nonempty route (the shortfall is swallowed silently). -/
theorem c5_silent_shortfall (d : Point α → Point α → α) (maxRange mpg : α)
    (idx : SpatialIndex α) (st : WalkState α) (w : Point α)
    (ws : List (Point α))
    (htrig : st.fuel - 30 < d st.lastStop w)
    (hnone : find_best_station_d d st.lastStop w ((w :: ws).take 3) idx st.fuel = none) :
    step_d d maxRange mpg idx st w ws =
      { st with fuel := st.fuel - d st.lastStop w,
                distTraveled := st.distTraveled + d st.lastStop w } ∧
    ∀ (pts : List (Point α)) (td : α), pts ≠ [] →
      (optimize_d d maxRange mpg pts td idx).isSome = true := by
  constructor
  · rw [step_d]
    simp only [if_pos htrig, hnone, advance]
  · intro pts td hne
    match pts with
    | p :: ps => simp [optimize_d]

/-- C5 witness: a concrete state needing fuel against an index with no
stations; the step only advances and `optimize` still returns a result. -/
theorem c5_witness :
    ((⟨[], 40, 0, 0, 0, ((0 : ℚ), (0 : ℚ))⟩ : WalkState ℚ).fuel - 30 <
        (fun _ _ => (100 : ℚ)) (⟨[], 40, 0, 0, 0, ((0 : ℚ), (0 : ℚ))⟩ : WalkState ℚ).lastStop ((1 : ℚ), (1 : ℚ))) ∧
    find_best_station_d (fun _ _ => (100 : ℚ))
        (⟨[], 40, 0, 0, 0, ((0 : ℚ), (0 : ℚ))⟩ : WalkState ℚ).lastStop ((1 : ℚ), (1 : ℚ))
        (((((1 : ℚ), (1 : ℚ))) :: ([] : List (Point ℚ))).take 3) empty_index
        (⟨[], 40, 0, 0, 0, ((0 : ℚ), (0 : ℚ))⟩ : WalkState ℚ).fuel = none ∧
    (step_d (fun _ _ => (100 : ℚ)) 500 10 empty_index
        ⟨[], 40, 0, 0, 0, ((0 : ℚ), (0 : ℚ))⟩ ((1 : ℚ), (1 : ℚ)) [] =
      { (⟨[], 40, 0, 0, 0, ((0 : ℚ), (0 : ℚ))⟩ : WalkState ℚ) with
          fuel := (⟨[], 40, 0, 0, 0, ((0 : ℚ), (0 : ℚ))⟩ : WalkState ℚ).fuel - 100,
          distTraveled := 0 + 100 } ∧
      ∀ (pts : List (Point ℚ)) (td : ℚ), pts ≠ [] →
        (optimize_d (fun _ _ => (100 : ℚ)) 500 10 pts td empty_index).isSome = true) := by
  refine ⟨by norm_num, by decide, ?_⟩
  have h := c5_silent_shortfall (fun _ _ => (100 : ℚ)) 500 10 empty_index
    ⟨[], 40, 0, 0, 0, ((0 : ℚ), (0 : ℚ))⟩ ((1 : ℚ), (1 : ℚ)) []
    (by norm_num) (by decide)
  exact h

/-! ### C6: candidate scoring, selection and refuel arithmetic -/

theorem bestOf_from_spec (b : Candidate α) (l : List (Candidate α)) :
    ∃ r, List.foldl
        (fun acc c => match acc with
          | none => some c
          | some b' => if score c < score b' then some c else acc)
        (some b) l = some r ∧
      ((r = b ∧ ∀ c ∈ l, score b ≤ score c) ∨
       (∃ l₁ l₂, l = l₁ ++ r :: l₂ ∧ score r < score b ∧
         (∀ c ∈ l₁, score r < score c) ∧ (∀ c ∈ l, score r ≤ score c))) := by
  induction l generalizing b with
  | nil => exact ⟨b, rfl, Or.inl ⟨rfl, by simp⟩⟩
  | cons c cs ih =>
    by_cases hc : score c < score b
    · simp only [List.foldl_cons, if_pos hc]
      obtain ⟨r, hr, hspec⟩ := ih c
      refine ⟨r, hr, Or.inr ?_⟩
      rcases hspec with ⟨rfl, hall⟩ | ⟨l₁, l₂, hsplit, hlt, hbefore, hle⟩
      · exact ⟨[], cs, rfl, hc, by simp, by
          intro x hx
          rcases List.mem_cons.mp hx with rfl | hx
          · exact le_refl _
          · exact hall x hx⟩
      · refine ⟨c :: l₁, l₂, by rw [hsplit]; rfl, lt_trans hlt hc, ?_, ?_⟩
        · intro x hx
          rcases List.mem_cons.mp hx with rfl | hx
          · exact hlt
          · exact hbefore x hx
        · intro x hx
          rcases List.mem_cons.mp hx with rfl | hx
          · exact le_of_lt hlt
          · exact hle x hx
    · simp only [List.foldl_cons, if_neg hc]
      obtain ⟨r, hr, hspec⟩ := ih b
      refine ⟨r, hr, ?_⟩
      rcases hspec with ⟨rfl, hall⟩ | ⟨l₁, l₂, hsplit, hlt, hbefore, hle⟩
      · refine Or.inl ⟨rfl, ?_⟩
        intro x hx
        rcases List.mem_cons.mp hx with rfl | hx
        · exact le_of_not_lt hc
        · exact hall x hx
      · refine Or.inr ⟨c :: l₁, l₂, by rw [hsplit]; rfl, hlt, ?_, ?_⟩
        · intro x hx
          rcases List.mem_cons.mp hx with rfl | hx
          · exact lt_of_lt_of_le hlt (le_of_not_lt hc)
          · exact hbefore x hx
        · intro x hx
          rcases List.mem_cons.mp hx with rfl | hx
          · exact le_of_lt (lt_of_lt_of_le hlt (le_of_not_lt hc))
          · exact hle x hx

/-- The scan `bestOf` returns the first-found minimum-score candidate: the list
splits as `l₁ ++ r :: l₂` with `r` scoring strictly below everything before
it and at most everything in the list. -/
theorem bestOf_spec {l : List (Candidate α)} (h : l ≠ []) :
    ∃ r, bestOf l = some r ∧
      ∃ l₁ l₂, l = l₁ ++ r :: l₂ ∧
        (∀ c ∈ l₁, score r < score c) ∧ (∀ c ∈ l, score r ≤ score c) := by
  match l, h with
  | b :: rest, _ =>
    obtain ⟨r, hr, hspec⟩ := bestOf_from_spec b rest
    refine ⟨r, ?_, ?_⟩
    · rw [bestOf, List.foldl_cons]
      exact hr
    · rcases hspec with ⟨rfl, hall⟩ | ⟨l₁, l₂, hsplit, hlt, hbefore, hle⟩
      · refine ⟨[], rest, rfl, by simp, ?_⟩
        intro x hx
        rcases List.mem_cons.mp hx with rfl | hx
        · exact le_refl _
        · exact hall x hx
      · refine ⟨b :: l₁, l₂, by rw [hsplit]; rfl, ?_, ?_⟩
        · intro x hx
          rcases List.mem_cons.mp hx with rfl | hx
          · exact hlt
          · exact hbefore x hx
        · intro x hx
          rcases List.mem_cons.mp hx with rfl | hx
          · exact le_of_lt hlt
          · exact hle x hx

/-- C6: at a refuel decision (trigger fired, station found), the selected
candidate is the first-found minimum of `price + 0.01 × distance_miles`
over the first 30 candidates (candidates are radius-search results sorted
ascending by reported distance), and the loop iteration buys
`gallons = 0.8 × max_range / mpg` at `cost = gallons × price`, records the
stop, and leaves `0.8 × max_range` of range before the segment subtraction
at the end of the iteration. -/
theorem c6_refuel_decision (d : Point α → Point α → α) (maxRange mpg : α)
    (idx : SpatialIndex α) (st : WalkState α) (w : Point α)
    (ws : List (Point α)) (c : Candidate α)
    (htrig : st.fuel - 30 < d st.lastStop w)
    (hfind : find_best_station_d d st.lastStop w ((w :: ws).take 3) idx st.fuel = some c) :
    (∃ l₁ l₂, (effective_candidates d st.lastStop idx st.fuel).take 30 = l₁ ++ c :: l₂ ∧
      (∀ e ∈ l₁, score c < score e) ∧
      (∀ e ∈ (effective_candidates d st.lastStop idx st.fuel).take 30, score c ≤ score e)) ∧
    (step_d d maxRange mpg idx st w ws).stops = st.stops ++
      [⟨c.station.name, (c.station.lat, c.station.lon), c.station.price,
        round2 ((8 / 10) * maxRange / mpg),
        round2 ((8 / 10) * maxRange / mpg * c.station.price),
        round2 st.distTraveled⟩] ∧
    (step_d d maxRange mpg idx st w ws).totalGallons =
      st.totalGallons + (8 / 10) * maxRange / mpg ∧
    (step_d d maxRange mpg idx st w ws).totalCost =
      st.totalCost + (8 / 10) * maxRange / mpg * c.station.price ∧
    (step_d d maxRange mpg idx st w ws).fuel =
      (8 / 10) * maxRange - d st.lastStop w := by
  have hne : (effective_candidates d st.lastStop idx st.fuel).take 30 ≠ [] := by
    intro hnil
    rw [find_best_station_d, hnil] at hfind
    simp [bestOf] at hfind
  obtain ⟨r, hr, l₁, l₂, hsplit, hbefore, hle⟩ := bestOf_spec hne
  have hrc : r = c := by
    rw [find_best_station_d] at hfind
    rw [hfind] at hr
    exact (Option.some_inj.mp hr).symm
  subst hrc
  refine ⟨⟨l₁, l₂, hsplit, hbefore, hle⟩, ?_⟩
  rw [step_d]
  simp only [if_pos htrig, hfind, refuel_update, advance]
  exact ⟨trivial, trivial, trivial, trivial⟩

/-- C6 witness: a concrete refuel decision at a one-station index. -/
theorem c6_witness :
    ((⟨[], 40, 0, 0, 0, ((0 : ℚ), (0 : ℚ))⟩ : WalkState ℚ).fuel - 30 <
        (fun p q => if p = q then (0 : ℚ) else 100)
          (⟨[], 40, 0, 0, 0, ((0 : ℚ), (0 : ℚ))⟩ : WalkState ℚ).lastStop ((1 : ℚ), (1 : ℚ))) ∧
    find_best_station_d (fun p q => if p = q then (0 : ℚ) else 100)
        ((0 : ℚ), (0 : ℚ)) ((1 : ℚ), (1 : ℚ)) ([(((1 : ℚ), (1 : ℚ)))].take 3)
        (⟨[⟨"1", "A", "", "", 3, 0, 0⟩], true⟩ : SpatialIndex ℚ) 40 =
      some ⟨⟨"1", "A", "", "", 3, 0, 0⟩, 0⟩ ∧
    (step_d (fun p q => if p = q then (0 : ℚ) else 100) 500 10
        (⟨[⟨"1", "A", "", "", 3, 0, 0⟩], true⟩ : SpatialIndex ℚ)
        ⟨[], 40, 0, 0, 0, ((0 : ℚ), (0 : ℚ))⟩ ((1 : ℚ), (1 : ℚ)) []).totalGallons =
      0 + (8 / 10) * 500 / 10 := by
  have hfind : find_best_station_d (fun p q => if p = q then (0 : ℚ) else 100)
      ((0 : ℚ), (0 : ℚ)) ((1 : ℚ), (1 : ℚ)) ([(((1 : ℚ), (1 : ℚ)))].take 3)
      (⟨[⟨"1", "A", "", "", 3, 0, 0⟩], true⟩ : SpatialIndex ℚ) 40 =
      some ⟨⟨"1", "A", "", "", 3, 0, 0⟩, 0⟩ := by
    norm_num [find_best_station_d, effective_candidates, find_in_radius_d, sqDeg,
      sortByKey, insertByKey, bestOf, round2, List.filter, List.filterMap]
  refine ⟨by norm_num, hfind, ?_⟩
  have h := c6_refuel_decision (fun p q => if p = q then (0 : ℚ) else 100) 500 10
    (⟨[⟨"1", "A", "", "", 3, 0, 0⟩], true⟩ : SpatialIndex ℚ)
    ⟨[], 40, 0, 0, 0, ((0 : ℚ), (0 : ℚ))⟩ ((1 : ℚ), (1 : ℚ)) []
    ⟨⟨"1", "A", "", "", 3, 0, 0⟩, 0⟩ (by norm_num) hfind
  exact h.2.2.1

/-! ### C7: `find_nearest_n` count, order and reported distances -/

/-- C7 counterexample: a built index holding exactly one valid station,
queried with `n = 5`.  The claim requires `min(5, 1) = 1` result; the code
clamps `k` to 1, scipy's `query` squeezes the `k` dimension so
`distances[0]` is a scalar, and `zip(distances[0], indices[0])` raises
`TypeError` — no result list is returned. -/
theorem c7_counterexample :
    find_nearest_n (load_from_rows [⟨"1", "A", "", "", 3, 1, 1⟩])
      ((0 : ℝ), 0) 5 = none := by
  have hv : valid_row (⟨"1", "A", "", "", 3, 1, 1⟩ : RawRow ℝ) = true := by
    rw [valid_row, decide_eq_true_eq]
    norm_num
  have hfilter : List.filter valid_row [(⟨"1", "A", "", "", 3, 1, 1⟩ : RawRow ℝ)] =
      [⟨"1", "A", "", "", 3, 1, 1⟩] := by
    rw [List.filter_cons_of_pos hv, List.filter_nil]
  have hload : load_from_rows [(⟨"1", "A", "", "", 3, 1, 1⟩ : RawRow ℝ)] =
      ⟨[row_station ⟨"1", "A", "", "", 3, 1, 1⟩], true⟩ := by
    simp only [load_from_rows, hfilter, List.map_cons, List.map_nil]
    rfl
  rw [hload, find_nearest_n]
  norm_num

/-- C7 amended: on a built index, a never-built/empty index yields `[]`;
when the clamped `k = min(n, station_count)` is 0 the scipy query raises
`ValueError`, and when it is 1 the squeezed scalar output makes `zip` raise
`TypeError` (so `n = 1`, or any query of a one-station index, raises);
only for `k ≥ 2` does `find_nearest_n` return exactly
`min(n, station_count)` results, ordered ascending by (tree-native,
squared degree) distance — hence also ascending in the reported miles —
with every reported distance converted by the fixed factor
`1 degree ≈ 69 miles` and rounded to two decimals. -/
theorem c7_amended (rows : List (RawRow ℝ)) (point : Point ℝ) (n : ℕ) :
    ((get_stats (load_from_rows rows)).station_count = 0 →
      find_nearest_n (load_from_rows rows) point n = some []) ∧
    (0 < (get_stats (load_from_rows rows)).station_count →
      min n (get_stats (load_from_rows rows)).station_count = 0 →
      find_nearest_n (load_from_rows rows) point n = none) ∧
    (0 < (get_stats (load_from_rows rows)).station_count →
      min n (get_stats (load_from_rows rows)).station_count = 1 →
      find_nearest_n (load_from_rows rows) point n = none) ∧
    (2 ≤ min n (get_stats (load_from_rows rows)).station_count →
      (find_nearest_n (load_from_rows rows) point n).isSome = true ∧
      ((find_nearest_n (load_from_rows rows) point n).getD []).length =
        min n (get_stats (load_from_rows rows)).station_count ∧
      ((find_nearest_n (load_from_rows rows) point n).getD []).Pairwise
        (fun a b => sqDeg point (a.station.lat, a.station.lon) ≤
          sqDeg point (b.station.lat, b.station.lon)) ∧
      ((find_nearest_n (load_from_rows rows) point n).getD []).Pairwise
        (fun a b => a.distance_miles ≤ b.distance_miles) ∧
      List.Forall
        (fun c => c.distance_miles =
          round2 (Real.sqrt (sqDeg point (c.station.lat, c.station.lon)) * 69))
        ((find_nearest_n (load_from_rows rows) point n).getD [])) := by
  set idx := load_from_rows (α := ℝ) rows with hidx
  have hcount : (get_stats idx).station_count = idx.stations.length := rfl
  have htree : idx.stations.length ≠ 0 → idx.hasTree = true := by
    intro hlen
    have h0 : idx.hasTree = decide (0 < idx.stations.length) := rfl
    rw [h0, decide_eq_true_eq]
    exact Nat.pos_of_ne_zero hlen
  refine ⟨?_, ?_, ?_, ?_⟩
  · intro h0
    rw [hcount] at h0
    rw [find_nearest_n, if_pos (Or.inr h0)]
  · intro hpos hmin
    rw [hcount] at hpos hmin
    have hcond : ¬(idx.hasTree = false ∨ idx.stations.length = 0) := by
      rw [htree (Nat.pos_iff_ne_zero.mp hpos)]
      simp [Nat.pos_iff_ne_zero.mp hpos]
    rw [find_nearest_n, if_neg hcond]
    simp [hmin]
  · intro hpos hmin
    rw [hcount] at hpos hmin
    have hcond : ¬(idx.hasTree = false ∨ idx.stations.length = 0) := by
      rw [htree (Nat.pos_iff_ne_zero.mp hpos)]
      simp [Nat.pos_iff_ne_zero.mp hpos]
    rw [find_nearest_n, if_neg hcond]
    simp [hmin]
  · intro h2
    rw [hcount] at h2
    have hlen : idx.stations.length ≠ 0 := by
      intro h0
      rw [h0] at h2
      simp at h2
    have hcond : ¬(idx.hasTree = false ∨ idx.stations.length = 0) := by
      rw [htree hlen]
      simp [hlen]
    have hk0 : min n idx.stations.length ≠ 0 := by omega
    have hk1 : min n idx.stations.length ≠ 1 := by omega
    have hval : find_nearest_n idx point n = some
        (((sortByKey (fun s => sqDeg point (s.lat, s.lon)) idx.stations).take
            (min n idx.stations.length)).map
          fun s => ⟨s, round2 (Real.sqrt (sqDeg point (s.lat, s.lon)) * 69)⟩) := by
      rw [find_nearest_n, if_neg hcond]
      simp only [if_neg hk0, if_neg hk1]
    rw [hval]
    set key := fun s : Station ℝ => sqDeg point (s.lat, s.lon) with hkey
    set taken := (sortByKey key idx.stations).take (min n idx.stations.length)
      with htaken
    have hpw : taken.Pairwise (fun a b => key a ≤ key b) :=
      List.Pairwise.sublist (List.take_sublist _ _)
        (pairwise_sortByKey key idx.stations)
    refine ⟨rfl, ?_, ?_, ?_, ?_⟩
    · simp only [Option.getD_some, List.length_map, htaken, List.length_take,
        length_sortByKey]
      rw [hcount, min_assoc, min_self]
    · rw [Option.getD_some, List.pairwise_map]
      exact hpw
    · rw [Option.getD_some, List.pairwise_map]
      refine hpw.imp ?_
      intro a b hab
      exact round2_mono (mul_le_mul_of_nonneg_right (Real.sqrt_le_sqrt hab)
        (by norm_num))
    · rw [Option.getD_some, List.forall_iff_forall_mem]
      intro c hc
      obtain ⟨s, _, rfl⟩ := List.mem_map.mp hc
      rfl

/-- C7 witness: a two-station index queried with `n = 5`: the clamped `k`
is 2, the query succeeds and returns exactly two results. -/
theorem c7_witness :
    2 ≤ min 5 (get_stats (load_from_rows
      [(⟨"1", "A", "", "", 3, 1, 1⟩ : RawRow ℝ), ⟨"2", "B", "", "", 3, 2, 1⟩])).station_count ∧
    (find_nearest_n (load_from_rows
        [(⟨"1", "A", "", "", 3, 1, 1⟩ : RawRow ℝ), ⟨"2", "B", "", "", 3, 2, 1⟩])
      ((0 : ℝ), 0) 5).isSome = true ∧
    ((find_nearest_n (load_from_rows
        [(⟨"1", "A", "", "", 3, 1, 1⟩ : RawRow ℝ), ⟨"2", "B", "", "", 3, 2, 1⟩])
      ((0 : ℝ), 0) 5).getD []).length =
      min 5 (get_stats (load_from_rows
        [(⟨"1", "A", "", "", 3, 1, 1⟩ : RawRow ℝ), ⟨"2", "B", "", "", 3, 2, 1⟩])).station_count := by
  have hv1 : valid_row (⟨"1", "A", "", "", 3, 1, 1⟩ : RawRow ℝ) = true := by
    rw [valid_row, decide_eq_true_eq]
    norm_num
  have hv2 : valid_row (⟨"2", "B", "", "", 3, 2, 1⟩ : RawRow ℝ) = true := by
    rw [valid_row, decide_eq_true_eq]
    norm_num
  have hfilter : List.filter valid_row
      [(⟨"1", "A", "", "", 3, 1, 1⟩ : RawRow ℝ), ⟨"2", "B", "", "", 3, 2, 1⟩] =
      [⟨"1", "A", "", "", 3, 1, 1⟩, ⟨"2", "B", "", "", 3, 2, 1⟩] := by
    rw [List.filter_cons_of_pos hv1, List.filter_cons_of_pos hv2, List.filter_nil]
  have hcount : (get_stats (load_from_rows
      [(⟨"1", "A", "", "", 3, 1, 1⟩ : RawRow ℝ), ⟨"2", "B", "", "", 3, 2, 1⟩])).station_count = 2 := by
    simp only [get_stats, load_from_rows, hfilter, List.map_cons, List.map_nil,
      List.length_cons, List.length_nil]
  have h2 : 2 ≤ min 5 (get_stats (load_from_rows
      [(⟨"1", "A", "", "", 3, 1, 1⟩ : RawRow ℝ), ⟨"2", "B", "", "", 3, 2, 1⟩])).station_count := by
    rw [hcount]
    norm_num
  have h := (c7_amended
    [(⟨"1", "A", "", "", 3, 1, 1⟩ : RawRow ℝ), ⟨"2", "B", "", "", 3, 2, 1⟩]
    ((0 : ℝ), 0) 5).2.2.2 h2
  exact ⟨h2, h.1, h.2.1⟩

/-! ### Haversine facts -/

theorem haversine_self (p : Point ℝ) : haversine p p = 0 := by
  simp only [haversine, radians]
  have h1 : (p.1 * Real.pi / 180 - p.1 * Real.pi / 180) / 2 = 0 := by ring
  have h2 : (p.2 * Real.pi / 180 - p.2 * Real.pi / 180) / 2 = 0 := by ring
  rw [h1, h2, Real.sin_zero]
  norm_num [Real.sqrt_zero, Real.arcsin_zero]

theorem haversine_nonneg (p q : Point ℝ) : 0 ≤ haversine p q := by
  simp only [haversine, radians]
  have h := Real.arcsin_nonneg.mpr
    (Real.sqrt_nonneg
      (Real.sin ((q.1 * Real.pi / 180 - p.1 * Real.pi / 180) / 2) ^ 2 +
        Real.cos (p.1 * Real.pi / 180) * Real.cos (q.1 * Real.pi / 180) *
          Real.sin ((q.2 * Real.pi / 180 - p.2 * Real.pi / 180) / 2) ^ 2))
  nlinarith

/-- On a meridian (equal longitudes) and for a northward latitude step of at
most 180 degrees, the source's haversine is exactly
`3959 × Δlat_radians`: the formula collapses to
`2·arcsin(sin(Δlat/2))`. -/
theorem haversine_meridian (lon a b : ℝ) (h0 : 0 ≤ b - a) (h1 : b - a ≤ 180) :
    haversine (a, lon) (b, lon) = 3959 * ((b - a) * Real.pi / 180) := by
  have hpi := Real.pi_pos
  simp only [haversine, radians]
  have e1 : (lon * Real.pi / 180 - lon * Real.pi / 180) / 2 = 0 := by ring
  have e2 : (b * Real.pi / 180 - a * Real.pi / 180) / 2 =
      (b - a) * Real.pi / 360 := by ring
  rw [e1, e2, Real.sin_zero]
  have hx0 : 0 ≤ (b - a) * Real.pi / 360 := by positivity
  have hx2 : (b - a) * Real.pi / 360 ≤ Real.pi / 2 := by
    rw [div_le_div_iff₀ (by norm_num) (by norm_num)]
    nlinarith
  have hsin0 : 0 ≤ Real.sin ((b - a) * Real.pi / 360) :=
    Real.sin_nonneg_of_nonneg_of_le_pi hx0 (le_trans hx2 (by linarith))
  have hzero : (0 : ℝ) ^ 2 = 0 := by norm_num
  rw [hzero, mul_zero, add_zero, Real.sqrt_sq hsin0,
    Real.arcsin_sin (by linarith) hx2]
  ring

/-! ### C10: stop list ordered by miles_from_start -/

theorem walk_d_stops_invariant (d : Point α → Point α → α)
    (hd : ∀ p q, 0 ≤ d p q) (maxRange mpg : α) (idx : SpatialIndex α)
    (ws : List (Point α)) (st : WalkState α)
    (h1 : 0 ≤ st.distTraveled)
    (h2 : st.stops.Pairwise (fun a b => a.miles_from_start ≤ b.miles_from_start))
    (h3 : ∀ s ∈ st.stops, 0 ≤ s.miles_from_start ∧
      s.miles_from_start ≤ round2 st.distTraveled) :
    (walk_d d maxRange mpg idx st ws).stops.Pairwise
      (fun a b => a.miles_from_start ≤ b.miles_from_start) ∧
    ∀ s ∈ (walk_d d maxRange mpg idx st ws).stops, 0 ≤ s.miles_from_start := by
  induction ws generalizing st with
  | nil =>
    exact ⟨h2, fun s hs => (h3 s hs).1⟩
  | cons w ws0 ih =>
    rw [walk_d]
    set seg := d st.lastStop w with hseg
    have hseg0 : 0 ≤ seg := hd _ _
    rw [step_d]
    set st' :=
      if st.fuel - 30 < d st.lastStop w then
        match find_best_station_d d st.lastStop w ((w :: ws0).take 3) idx st.fuel with
        | some c => refuel_update maxRange mpg st c
        | none => st
      else st with hst'
    have hstops : st'.stops = st.stops ∨
        ∃ c : Candidate α, st'.stops = st.stops ++
          [⟨c.station.name, (c.station.lat, c.station.lon), c.station.price,
            round2 ((8 / 10) * maxRange / mpg),
            round2 ((8 / 10) * maxRange / mpg * c.station.price),
            round2 st.distTraveled⟩] := by
      rw [hst']
      by_cases htrig : st.fuel - 30 < d st.lastStop w
      · rw [if_pos htrig]
        cases hbs : find_best_station_d d st.lastStop w ((w :: ws0).take 3) idx st.fuel with
        | none => exact Or.inl rfl
        | some c => exact Or.inr ⟨c, rfl⟩
      · rw [if_neg htrig]
        exact Or.inl rfl
    have hdist : st'.distTraveled = st.distTraveled := by
      rw [hst']
      by_cases htrig : st.fuel - 30 < d st.lastStop w
      · rw [if_pos htrig]
        cases find_best_station_d d st.lastStop w ((w :: ws0).take 3) idx st.fuel with
        | none => rfl
        | some c => rfl
      · rw [if_neg htrig]
    apply ih
    · simp only [advance]
      rw [hdist]
      exact add_nonneg h1 hseg0
    · simp only [advance]
      rcases hstops with heq | ⟨c, heq⟩
      · rw [heq]; exact h2
      · rw [heq, List.pairwise_append]
        refine ⟨h2, List.pairwise_singleton _ _, ?_⟩
        intro a ha b hb
        rw [List.mem_singleton] at hb
        subst hb
        exact (h3 a ha).2
    · intro s hs
      simp only [advance] at hs ⊢
      rw [hdist]
      have hmono : round2 st.distTraveled ≤
          round2 (st.distTraveled + seg) :=
        round2_mono (by linarith)
      rcases hstops with heq | ⟨c, heq⟩
      · rw [heq] at hs
        exact ⟨(h3 s hs).1, le_trans (h3 s hs).2 hmono⟩
      · rw [heq, List.mem_append] at hs
        rcases hs with hs | hs
        · exact ⟨(h3 s hs).1, le_trans (h3 s hs).2 hmono⟩
        · rw [List.mem_singleton] at hs
          subst hs
          exact ⟨round2_nonneg h1, hmono⟩

/-- C10: every result of `optimize` lists its stops in non-decreasing
`miles_from_start` order with all values non-negative: the cumulative
distance only grows by non-negative haversine segments, and each stop
records the cumulative distance at its refuel. -/
theorem c10_stops_monotone (maxRange mpg : ℝ) (pts : List (Point ℝ))
    (td : ℝ) (idx : SpatialIndex ℝ) :
    (stopsOf (optimize maxRange mpg pts td idx)).Pairwise
      (fun a b => a.miles_from_start ≤ b.miles_from_start) ∧
    List.Forall (fun s => 0 ≤ s.miles_from_start)
      (stopsOf (optimize maxRange mpg pts td idx)) := by
  match pts with
  | [] => exact ⟨List.Pairwise.nil, trivial⟩
  | p0 :: rest =>
    have hinv := walk_d_stops_invariant haversine haversine_nonneg maxRange mpg idx
      (sample_route haversine 50 (p0 :: rest)).tail
      ⟨[], maxRange, 0, 0, 0, p0⟩ le_rfl List.Pairwise.nil (by simp)
    rw [optimize, optimize_d]
    constructor
    · exact hinv.1
    · rw [List.forall_iff_forall_mem]
      exact hinv.2

/-! ### Concrete evaluations of `find_in_radius_d` -/

/-- A one-station index whose station fails the degree-radius pre-filter
returns nothing, whatever its exact distance is. -/
theorem find_in_radius_d_one_miss (d : Point α → Point α → α)
    (s : Station α) (point : Point α) (R : α)
    (hpre : ¬(sqDeg point (s.lat, s.lon) ≤ (R / 69) ^ 2 ∧ 0 ≤ R / 69)) :
    find_in_radius_d d (⟨[s], true⟩ : SpatialIndex α) point R = [] := by
  simp only [find_in_radius_d]
  rw [if_neg (by simp)]
  rw [List.filter_cons_of_neg (by simpa using hpre), List.filter_nil]
  rfl

/-- A one-station index whose station passes the pre-filter and the exact
check returns exactly that station with its rounded distance. -/
theorem find_in_radius_d_one_hit (d : Point α → Point α → α)
    (s : Station α) (point : Point α) (R : α)
    (hpre : sqDeg point (s.lat, s.lon) ≤ (R / 69) ^ 2) (hR : 0 ≤ R / 69)
    (hdist : d point (s.lat, s.lon) ≤ R) :
    find_in_radius_d d (⟨[s], true⟩ : SpatialIndex α) point R =
      [⟨s, round2 (d point (s.lat, s.lon))⟩] := by
  simp only [find_in_radius_d]
  rw [if_neg (by simp)]
  rw [List.filter_cons_of_pos (by simpa using And.intro hpre hR), List.filter_nil]
  simp only [List.filterMap, if_pos hdist]
  rfl

/-- A two-station index where both stations pass the pre-filter and the
exact check, and the first station's rounded distance is at most the
second's: the stable sort keeps the input (station-array) order. -/
theorem find_in_radius_d_two_hits (d : Point α → Point α → α)
    (s1 s2 : Station α) (point : Point α) (R : α)
    (hpre1 : sqDeg point (s1.lat, s1.lon) ≤ (R / 69) ^ 2)
    (hpre2 : sqDeg point (s2.lat, s2.lon) ≤ (R / 69) ^ 2) (hR : 0 ≤ R / 69)
    (hdist1 : d point (s1.lat, s1.lon) ≤ R)
    (hdist2 : d point (s2.lat, s2.lon) ≤ R)
    (hkey : round2 (d point (s1.lat, s1.lon)) ≤ round2 (d point (s2.lat, s2.lon))) :
    find_in_radius_d d (⟨[s1, s2], true⟩ : SpatialIndex α) point R =
      [⟨s1, round2 (d point (s1.lat, s1.lon))⟩,
       ⟨s2, round2 (d point (s2.lat, s2.lon))⟩] := by
  simp only [find_in_radius_d]
  rw [if_neg (by simp)]
  rw [List.filter_cons_of_pos (by simpa using And.intro hpre1 hR),
    List.filter_cons_of_pos (by simpa using And.intro hpre2 hR), List.filter_nil]
  simp only [List.filterMap, if_pos hdist1, if_pos hdist2]
  rw [sortByKey, sortByKey, sortByKey, insertByKey]
  rw [insertByKey, if_pos hkey]

/-! ### C1: exactness of `within_radius` -/

/-- C1 amended: every station returned by `find_in_radius` does satisfy the
exact haversine bound (candidates are re-validated with the exact formula
before inclusion), and the output is sorted ascending by the reported
(2-decimal-rounded) distance.  Exhaustiveness fails, and ascending order
holds only for the rounded distances: see the counterexample. -/
theorem c1_amended (idx : SpatialIndex ℝ) (point : Point ℝ) (radius_miles : ℝ) :
    List.Forall
      (fun c => haversine point (c.station.lat, c.station.lon) ≤ radius_miles)
      (find_in_radius idx point radius_miles) ∧
    (find_in_radius idx point radius_miles).Pairwise
      (fun a b => a.distance_miles ≤ b.distance_miles) := by
  rw [find_in_radius]
  simp only [find_in_radius_d]
  by_cases hcond : idx.hasTree = false ∨ idx.stations.length = 0
  · rw [if_pos hcond]
    exact ⟨trivial, List.Pairwise.nil⟩
  · rw [if_neg hcond]
    constructor
    · rw [List.forall_iff_forall_mem]
      intro c hc
      rw [mem_sortByKey] at hc
      obtain ⟨s, _, hg⟩ := List.mem_filterMap.mp hc
      by_cases hd : haversine point (s.lat, s.lon) ≤ radius_miles
      · rw [if_pos hd] at hg
        obtain rfl := Option.some_inj.mp hg
        exact hd
      · rw [if_neg hd] at hg
        exact absurd hg (by simp)
    · exact pairwise_sortByKey _ _

/-- Across the antimeridian at latitude 89, the two points `(89, -179)` and
`(89, 179)` are within 150 exact haversine miles of each other (about 138):
`a = sin⁴(π/180)` so the central angle is `2·arcsin(sin²(π/180)) ≤ 2·π/180`. -/
theorem haversine_antimeridian_le :
    haversine ((89 : ℝ), -179) ((89 : ℝ), 179) ≤ 150 := by
  have hpi := Real.pi_pos
  simp only [haversine, radians]
  have e1 : ((89 : ℝ) * Real.pi / 180 - 89 * Real.pi / 180) / 2 = 0 := by ring
  have e2 : ((179 : ℝ) * Real.pi / 180 - -179 * Real.pi / 180) / 2 =
      179 * Real.pi / 180 := by ring
  rw [e1, e2, Real.sin_zero]
  have hcos : Real.cos ((89 : ℝ) * Real.pi / 180) = Real.sin (Real.pi / 180) := by
    have h : (89 : ℝ) * Real.pi / 180 = Real.pi / 2 - Real.pi / 180 := by ring
    rw [h, Real.cos_pi_div_two_sub]
  have hsin179 : Real.sin ((179 : ℝ) * Real.pi / 180) = Real.sin (Real.pi / 180) := by
    have h : (179 : ℝ) * Real.pi / 180 = Real.pi - Real.pi / 180 := by ring
    rw [h, Real.sin_pi_sub]
  rw [hcos, hsin179]
  set s := Real.sin (Real.pi / 180) with hs
  have hs0 : 0 ≤ s := by
    rw [hs]
    exact Real.sin_nonneg_of_nonneg_of_le_pi (by positivity) (by nlinarith)
  have hs1 : s ≤ 1 := Real.sin_le_one _
  have ha : (0 : ℝ) ^ 2 + s * s * s ^ 2 = (s ^ 2) ^ 2 := by ring
  rw [ha, Real.sqrt_sq (by positivity)]
  have hmono : Real.arcsin (s ^ 2) ≤ Real.arcsin s :=
    Real.monotone_arcsin (by nlinarith)
  have harcsin_s : Real.arcsin s = Real.pi / 180 := by
    rw [hs]
    exact Real.arcsin_sin (by nlinarith) (by nlinarith)
  have hb : Real.arcsin (s ^ 2) ≤ Real.pi / 180 := harcsin_s ▸ hmono
  nlinarith [Real.pi_lt_d2]

/-- C1 counterexample.  First input: one station at `(89, 179)` queried from
`(89, -179)` with radius 150.  Its exact haversine distance is at most 150,
but its Euclidean degree distance to the query (358 degrees of longitude)
far exceeds the pre-filter radius `150/69`, so `find_in_radius` returns the
empty list — a station inside the radius is omitted.  Second input: two
stations on the Greenwich meridian at latitudes 0.10005 and 0.1, listed
farther-first, queried from `(0,0)` with radius 20.  Both exact distances
round to 6.91, so the stable sort keeps the array order and the output
lists the strictly farther station first — the output is not sorted
ascending by exact distance. -/
theorem c1_counterexample :
    (find_in_radius (⟨[⟨"1", "A", "", "", 3, 89, 179⟩], true⟩ : SpatialIndex ℝ)
        ((89 : ℝ), -179) 150 = [] ∧
      haversine ((89 : ℝ), -179) ((89 : ℝ), 179) ≤ 150) ∧
    (find_in_radius
        (⟨[⟨"2", "F", "", "", 3, 2001 / 20000, 0⟩,
           ⟨"3", "N", "", "", 3, 1 / 10, 0⟩], true⟩ : SpatialIndex ℝ)
        ((0 : ℝ), 0) 20 =
      [⟨⟨"2", "F", "", "", 3, 2001 / 20000, 0⟩, 691 / 100⟩,
       ⟨⟨"3", "N", "", "", 3, 1 / 10, 0⟩, 691 / 100⟩] ∧
      haversine ((0 : ℝ), 0) ((1 / 10 : ℝ), 0) <
        haversine ((0 : ℝ), 0) ((2001 / 20000 : ℝ), 0)) := by
  have hpi := Real.pi_pos
  have hpigt := Real.pi_gt_d4
  have hpilt := Real.pi_lt_d4
  have hmer1 : haversine ((0 : ℝ), 0) ((2001 / 20000 : ℝ), 0) =
      3959 * ((2001 / 20000 - 0) * Real.pi / 180) :=
    haversine_meridian 0 0 (2001 / 20000) (by norm_num) (by norm_num)
  have hmer2 : haversine ((0 : ℝ), 0) ((1 / 10 : ℝ), 0) =
      3959 * ((1 / 10 - 0) * Real.pi / 180) :=
    haversine_meridian 0 0 (1 / 10) (by norm_num) (by norm_num)
  have hr1 : round2 (haversine ((0 : ℝ), 0) ((2001 / 20000 : ℝ), 0)) = 691 / 100 := by
    rw [hmer1, round2, round_eq]
    have hfloor : ⌊(100 : ℝ) * (3959 * ((2001 / 20000 - 0) * Real.pi / 180)) + 1 / 2⌋ =
        (691 : ℤ) := by
      rw [Int.floor_eq_iff]
      constructor
      · push_cast; nlinarith
      · push_cast; nlinarith
    rw [hfloor]
    norm_num
  have hr2 : round2 (haversine ((0 : ℝ), 0) ((1 / 10 : ℝ), 0)) = 691 / 100 := by
    rw [hmer2, round2, round_eq]
    have hfloor : ⌊(100 : ℝ) * (3959 * ((1 / 10 - 0) * Real.pi / 180)) + 1 / 2⌋ =
        (691 : ℤ) := by
      rw [Int.floor_eq_iff]
      constructor
      · push_cast; nlinarith
      · push_cast; nlinarith
    rw [hfloor]
    norm_num
  refine ⟨⟨?_, haversine_antimeridian_le⟩, ?_, ?_⟩
  · rw [find_in_radius]
    apply find_in_radius_d_one_miss
    intro hcontra
    have := hcontra.1
    norm_num [sqDeg] at this
  · rw [find_in_radius]
    have hout := find_in_radius_d_two_hits haversine
      ⟨"2", "F", "", "", 3, 2001 / 20000, 0⟩ ⟨"3", "N", "", "", 3, 1 / 10, 0⟩
      ((0 : ℝ), 0) 20
      (by norm_num [sqDeg]) (by norm_num [sqDeg]) (by norm_num)
      (by rw [show ((⟨"2", "F", "", "", 3, 2001 / 20000, 0⟩ : Station ℝ).lat,
            (⟨"2", "F", "", "", 3, 2001 / 20000, 0⟩ : Station ℝ).lon) =
            ((2001 / 20000 : ℝ), (0 : ℝ)) from rfl, hmer1]; nlinarith)
      (by rw [show ((⟨"3", "N", "", "", 3, 1 / 10, 0⟩ : Station ℝ).lat,
            (⟨"3", "N", "", "", 3, 1 / 10, 0⟩ : Station ℝ).lon) =
            ((1 / 10 : ℝ), (0 : ℝ)) from rfl, hmer2]; nlinarith)
      (by
        rw [show ((⟨"2", "F", "", "", 3, 2001 / 20000, 0⟩ : Station ℝ).lat,
            (⟨"2", "F", "", "", 3, 2001 / 20000, 0⟩ : Station ℝ).lon) =
            ((2001 / 20000 : ℝ), (0 : ℝ)) from rfl,
          show ((⟨"3", "N", "", "", 3, 1 / 10, 0⟩ : Station ℝ).lat,
            (⟨"3", "N", "", "", 3, 1 / 10, 0⟩ : Station ℝ).lon) =
            ((1 / 10 : ℝ), (0 : ℝ)) from rfl, hr1, hr2])
    rw [hout, hr1, hr2]
  · rw [hmer1, hmer2]
    nlinarith

/-! ### C2: a short route that still buys fuel -/

/-- C2 failing input: the meridian route `(0,0) → (2.2,0) → (4.4,0) →
(6.6,0)` (11/5, 22/5, 33/5 degrees of latitude), whose true haversine
length `3959·(33/5)·π/180 ≈ 456` miles is below
`max_range − safety_buffer = 470`, run with `max_range = 500`, `mpg = 10`
and a one-station index at the route start (price 4.00).  The claim (and
spec §4.2 edge case) requires zero stops and zero cost; the code instead
subtracts the full distance from the *last stop* to each sampled waypoint
from the fuel state at every iteration (`optimizer.py:101,145`), so fuel is
over-consumed (50 + 100 + 150-style accounting), a refuel triggers at the
third waypoint, and the result has one stop costing 160.00. -/
theorem c2_short_route_buys_fuel :
    3959 * ((33 / 5 : ℝ) * Real.pi / 180) < 470 ∧
    haversine ((0 : ℝ), 0) ((11 / 5 : ℝ), 0) +
        haversine ((11 / 5 : ℝ), 0) ((22 / 5 : ℝ), 0) +
        haversine ((22 / 5 : ℝ), 0) ((33 / 5 : ℝ), 0) =
      3959 * ((33 / 5 : ℝ) * Real.pi / 180) ∧
    (optimize 500 10
        [((0 : ℝ), (0 : ℝ)), ((11 / 5 : ℝ), 0), ((22 / 5 : ℝ), 0), ((33 / 5 : ℝ), 0)]
        (3959 * ((33 / 5 : ℝ) * Real.pi / 180))
        (⟨[⟨"1", "C", "", "", 4, 0, 0⟩], true⟩ : SpatialIndex ℝ)).map
      (fun r => (r.stops.length, r.total_cost)) = some (1, 160) := by
  have hpi := Real.pi_pos
  have hgt := Real.pi_gt_d2
  have hlt := Real.pi_lt_d2
  set p0 : Point ℝ := ((0 : ℝ), (0 : ℝ)) with hp0
  set p1 : Point ℝ := ((11 / 5 : ℝ), (0 : ℝ)) with hp1
  set p2 : Point ℝ := ((22 / 5 : ℝ), (0 : ℝ)) with hp2
  set p3 : Point ℝ := ((33 / 5 : ℝ), (0 : ℝ)) with hp3
  set stC : Station ℝ := ⟨"1", "C", "", "", 4, 0, 0⟩ with hstC
  set idxC : SpatialIndex ℝ := ⟨[stC], true⟩ with hidxC
  have hL1 : haversine p0 p1 = 3959 * ((11 / 5 - 0) * Real.pi / 180) :=
    haversine_meridian 0 0 (11 / 5) (by norm_num) (by norm_num)
  have hL2 : haversine p1 p2 = 3959 * ((22 / 5 - 11 / 5) * Real.pi / 180) :=
    haversine_meridian 0 (11 / 5) (22 / 5) (by norm_num) (by norm_num)
  have hL3 : haversine p2 p3 = 3959 * ((33 / 5 - 22 / 5) * Real.pi / 180) :=
    haversine_meridian 0 (22 / 5) (33 / 5) (by norm_num) (by norm_num)
  have hD2 : haversine p0 p2 = 3959 * ((22 / 5 - 0) * Real.pi / 180) :=
    haversine_meridian 0 0 (22 / 5) (by norm_num) (by norm_num)
  have hD3 : haversine p0 p3 = 3959 * ((33 / 5 - 0) * Real.pi / 180) :=
    haversine_meridian 0 0 (33 / 5) (by norm_num) (by norm_num)
  refine ⟨by nlinarith, by rw [hL1, hL2, hL3]; ring, ?_⟩
  -- sampling keeps all four points: each leg is about 152 ≥ 50 miles
  have haux3 : sample_aux haversine 50 p3 [] 0 = [] := rfl
  have haux2 : sample_aux haversine 50 p2 [p3] 0 = [p3] := by
    rw [sample_aux, if_pos (by rw [hL3]; nlinarith), haux3]
  have haux1 : sample_aux haversine 50 p1 [p2, p3] 0 = [p2, p3] := by
    rw [sample_aux, if_pos (by rw [hL2]; nlinarith), haux2]
  have haux0 : sample_aux haversine 50 p0 [p1, p2, p3] 0 = [p1, p2, p3] := by
    rw [sample_aux, if_pos (by rw [hL1]; nlinarith), haux1]
  have hsample : sample_route haversine 50 [p0, p1, p2, p3] = [p0, p1, p2, p3] := by
    rw [sample_route]
    simp only [haux0]
    have hcond : (p0 :: [p1, p2, p3]).getLast (List.cons_ne_nil _ _) =
        ([p1, p2, p3] : List (Point ℝ)).getLast (List.cons_ne_nil _ _) := rfl
    rw [if_pos hcond]
  -- the waypoint walk
  set st0 : WalkState ℝ := ⟨[], 500, 0, 0, 0, p0⟩ with hst0
  set st1 : WalkState ℝ :=
    ⟨[], 500 - haversine p0 p1, 0 + haversine p0 p1, 0, 0, p0⟩ with hst1
  set st2 : WalkState ℝ :=
    ⟨[], 500 - haversine p0 p1 - haversine p0 p2,
      0 + haversine p0 p1 + haversine p0 p2, 0, 0, p0⟩ with hst2
  have hno1 : ¬(st0.fuel - 30 < haversine st0.lastStop p1) := by
    rw [hst0]
    simp only
    rw [hL1]
    nlinarith
  have hstep1 : step_d haversine 500 10 idxC st0 p1 [p2, p3] = st1 := by
    simp only [step_d]
    rw [if_neg hno1]
    rfl
  have hno2 : ¬(st1.fuel - 30 < haversine st1.lastStop p2) := by
    rw [hst1]
    simp only
    rw [hL1, hD2]
    nlinarith
  have hstep2 : step_d haversine 500 10 idxC st1 p2 [p3] = st2 := by
    simp only [step_d]
    rw [if_neg hno2]
    rfl
  have htrig3 : st2.fuel - 30 < haversine st2.lastStop p3 := by
    rw [hst2]
    simp only
    rw [hL1, hD2, hD3]
    nlinarith
  -- the station search at the third waypoint
  have hloc : ((stC.lat, stC.lon) : Point ℝ) = p0 := by rw [hstC, hp0]
  have hhit : find_in_radius_d haversine idxC p0 20 = [⟨stC, round2 0⟩] := by
    have h := find_in_radius_d_one_hit haversine stC p0 20
      (by rw [hloc]; simp [sqDeg]; positivity) (by norm_num)
      (by rw [hloc, haversine_self]; norm_num)
    rw [← hidxC] at h
    rw [h, hloc, haversine_self]
  have hmin : min (st2.fuel * (9 / 10)) 20 = 20 := by
    apply min_eq_right
    rw [hst2]
    simp only
    rw [hL1, hD2]
    nlinarith
  have heff : effective_candidates haversine p0 idxC st2.fuel = [⟨stC, round2 0⟩] := by
    simp only [effective_candidates]
    rw [hmin, hhit]
    rfl
  have hbest : find_best_station_d haversine st2.lastStop p3 ((p3 :: ([] : List (Point ℝ))).take 3)
      idxC st2.fuel = some ⟨stC, round2 0⟩ := by
    rw [find_best_station_d]
    rw [show st2.lastStop = p0 from by rw [hst2]]
    rw [heff]
    rfl
  have hstep3 : step_d haversine 500 10 idxC st2 p3 [] =
      advance (refuel_update 500 10 st2 ⟨stC, round2 0⟩) (haversine st2.lastStop p3) := by
    simp only [step_d]
    rw [if_pos htrig3, hbest]
  -- assemble
  have hcost : round2 ((0 : ℝ) + 8 / 10 * 500 / 10 * 4) = 160 := by
    rw [show (0 : ℝ) + 8 / 10 * 500 / 10 * 4 = 160 by norm_num]
    rw [round2, round_eq]
    have hfloor : ⌊(100 : ℝ) * 160 + 1 / 2⌋ = (16000 : ℤ) := by
      rw [Int.floor_eq_iff]
      constructor
      · push_cast; norm_num
      · push_cast; norm_num
    rw [hfloor]
    norm_num
  rw [optimize, optimize_d]
  simp only [hsample, List.tail_cons]
  rw [walk_d, hstep1, walk_d, hstep2, walk_d, hstep3, walk_d]
  simp only [Option.map_some', advance, refuel_update, Option.some_inj,
    Prod.mk.injEq, List.nil_append, List.length_cons, List.length_nil]
  exact ⟨trivial, hcost⟩

end FuelOpt
